import Mathlib

/-!
Verification of the passly CTAP2 client-PIN core
(`crates/ctap2-proto/src/authenticator/client_pin/`): the PIN/UV auth
protocol version tag, the `PinUvAuthToken`, the client-PIN `Request` and
`Response` enums with their field contracts, and the platform-side
`Session` interface.  Definitions are shallow embeddings of the Rust
source; byte values are modelled as `Nat` (the claims settled here
concern lengths and variant shapes, not byte arithmetic).
-/

namespace Passly

/-- Byte strings of a fixed length `n`, embedding the Rust array type of
`n` bytes (such as the 16-byte `PinUvAuthParam` alias or the 64-byte
encrypted-new-PIN field). -/
def Bytes (n : Nat) : Type := {l : List Nat // l.length = n}

/-- Embedding of `client_pin::Error` (mod.rs): the closed, flat error
enumeration of the client-PIN family. -/
inductive Error where
  | missingParameter
  | invalidParameter
  | pinAuthInvalid
  | pinPolicyViolation
  | pinBlocked
  | pinAuthBlocked
  | pinInvalid
  | operationDenied
  | unauthorizedPermission
  | notAllowed
  | userVerificationBlocked
  | userActionTimeout
  | userVerificationInvalid
  deriving DecidableEq, Repr

/-- Embedding of `auth_protocol::Version` (auth_protocol.rs): the closed
two-variant PIN/UV auth protocol version enumeration. -/
inductive Version where
  | one
  | two
  deriving DecidableEq, Repr

/-- Embedding of the `From<Version> for u8` impl (auth_protocol.rs): the
discriminant values are `One = 1` and `Two = 2`. -/
def Version.toU8 : Version → Nat
  | .one => 1
  | .two => 2

/-- Embedding of the `TryFrom<u8> for Version` impl (auth_protocol.rs):
byte 1 parses to `One`, byte 2 to `Two`, and every other byte fails with
`Error::InvalidParameter`. -/
def Version.tryFromU8 (b : Nat) : Except Error Version :=
  if b = 1 then .ok .one
  else if b = 2 then .ok .two
  else .error .invalidParameter

/-- Embedding of `cosey::PublicKey`, the COSE key-agreement public key.
The spec treats the COSE structure as an external collaborator and this
core handles it opaquely, so it is modelled as a raw byte payload. -/
structure CoseKey where
  raw : List Nat
  deriving DecidableEq, Repr

/-- Embedding of `client_pin::Permission` (mod.rs): the closed set of
six token capabilities. -/
inductive Permission where
  | makeCredential
  | getAssertion
  | credentialManagement
  | biometricEnrollment
  | largeBlobWrite
  | authenticatorConfiguration
  deriving DecidableEq, Repr

/-- Embedding of `client_pin::PinUvAuthToken` (mod.rs): a session-bound
secret with two size variants, 16 bytes (`Short`, protocol One) and 32
bytes (`Long`, protocol Two). -/
inductive PinUvAuthToken where
  | short (bytes : Bytes 16)
  | long (bytes : Bytes 32)

/-- Embedding of the `TryFrom<&[u8]> for PinUvAuthToken` impl (mod.rs):
a match on the input length, accepting exactly 16 (`Short`) and 32
(`Long`) and failing with `Error::InvalidParameter` otherwise. -/
def PinUvAuthToken.tryFrom (l : List Nat) : Except Error PinUvAuthToken :=
  if h16 : l.length = 16 then .ok (.short ⟨l, h16⟩)
  else if h32 : l.length = 32 then .ok (.long ⟨l, h32⟩)
  else .error .invalidParameter

/-- Embedding of `client_pin::Request` (mod.rs): the closed enumeration
of client-PIN request variants, each carrying only the fields of its
operation.  The Rust `BTreeSet<Permission>` (an ordered set) is modelled
as `Finset Permission`; the ciphertext fields keep their array lengths
(`[u8; 64]` for the encrypted new PIN, `[u8; 16]` for the encrypted PIN
hash and the PIN/UV auth parameter).  As in the source, the permission
set fields accept any set: the source marks non-emptiness enforcement as
an open TODO. -/
inductive Request where
  | getPinRetries
  | getKeyAgreement (version : Version)
  | setPin (version : Version) (keyAgreement : CoseKey)
      (newPinEncrypted : Bytes 64) (pinUvAuthParam : Bytes 16)
  | changePin (version : Version) (keyAgreement : CoseKey)
      (pinHashEncrypted : Bytes 16) (newPinEncrypted : Bytes 64)
      (pinUvAuthParam : Bytes 16)
  | getPinToken (version : Version) (keyAgreement : CoseKey)
      (pinHashEncrypted : Bytes 16)
  | getPinUvAuthTokenUsingUvWithPermissions (version : Version)
      (keyAgreement : CoseKey) (permissions : Finset Permission)
      (relyingPartyId : Option String)
  | getUvRetries
  | getPinUvAuthTokenUsingPinWithPermissions (version : Version)
      (keyAgreement : CoseKey) (pinHashEncrypted : Bytes 16)
      (permissions : Finset Permission) (relyingPartyId : Option String)

/-- The UV retry counter type: embedding of `BoundedUsize<1, 25>` from
the `bounded_integer` crate, a usize statically confined to [1, 25]. -/
def UvRetries : Type := {n : Nat // 1 ≤ n ∧ n ≤ 25}

/-- Embedding of `client_pin::Response` (mod.rs): the closed enumeration
of client-PIN response variants. -/
inductive Response where
  | getPinRetries (pinRetries : Nat) (powerCycleState : Option Nat)
  | getKeyAgreement (keyAgreement : CoseKey)
  | setPin
  | changePin
  | getPinToken (pinUvAuthToken : PinUvAuthToken)
  | getPinUvAuthTokenUsingUvWithPermissions (pinUvAuthToken : PinUvAuthToken)
  | getUvRetries (uvRetries : UvRetries)
  | getPinUvAuthTokenUsingPinWithPermissions (pinUvAuthToken : PinUvAuthToken)

/-- The variant tags of `Request`, one per constructor, for counting and
dispatch statements. -/
inductive RequestTag where
  | getPinRetries
  | getKeyAgreement
  | setPin
  | changePin
  | getPinToken
  | getPinUvAuthTokenUsingUvWithPermissions
  | getUvRetries
  | getPinUvAuthTokenUsingPinWithPermissions
  deriving DecidableEq, Fintype, Repr

/-- The variant tags of `Response`, one per constructor. -/
inductive ResponseTag where
  | getPinRetries
  | getKeyAgreement
  | setPin
  | changePin
  | getPinToken
  | getPinUvAuthTokenUsingUvWithPermissions
  | getUvRetries
  | getPinUvAuthTokenUsingPinWithPermissions
  deriving DecidableEq, Fintype, Repr

/-- The tag of a request: a total map onto the variant enumeration. -/
def Request.tag : Request → RequestTag
  | .getPinRetries => .getPinRetries
  | .getKeyAgreement _ => .getKeyAgreement
  | .setPin _ _ _ _ => .setPin
  | .changePin _ _ _ _ _ => .changePin
  | .getPinToken _ _ _ => .getPinToken
  | .getPinUvAuthTokenUsingUvWithPermissions _ _ _ _ =>
      .getPinUvAuthTokenUsingUvWithPermissions
  | .getUvRetries => .getUvRetries
  | .getPinUvAuthTokenUsingPinWithPermissions _ _ _ _ _ =>
      .getPinUvAuthTokenUsingPinWithPermissions

/-- The tag of a response: a total map onto the variant enumeration. -/
def Response.tag : Response → ResponseTag
  | .getPinRetries _ _ => .getPinRetries
  | .getKeyAgreement _ => .getKeyAgreement
  | .setPin => .setPin
  | .changePin => .changePin
  | .getPinToken _ => .getPinToken
  | .getPinUvAuthTokenUsingUvWithPermissions _ => .getPinUvAuthTokenUsingUvWithPermissions
  | .getUvRetries _ => .getUvRetries
  | .getPinUvAuthTokenUsingPinWithPermissions _ => .getPinUvAuthTokenUsingPinWithPermissions

/-- The permission set carried by a request, when its variant has one
(the two token-with-permissions variants). -/
def Request.permissionsOf : Request → Option (Finset Permission)
  | .getPinUvAuthTokenUsingUvWithPermissions _ _ p _ => some p
  | .getPinUvAuthTokenUsingPinWithPermissions _ _ _ p _ => some p
  | _ => none

/-- The encrypted new PIN carried by a request, when its variant has one
(`SetPin` and `ChangePin`), as a raw byte string. -/
def Request.newPinEncryptedOf : Request → Option (List Nat)
  | .setPin _ _ np _ => some np.val
  | .changePin _ _ _ np _ => some np.val
  | _ => none

/-- The encrypted PIN hash carried by a request, when its variant has
one (`ChangePin`, `GetPinToken`,
`GetPinUvAuthTokenUsingPinWithPermissions`), as a raw byte string. -/
def Request.pinHashEncryptedOf : Request → Option (List Nat)
  | .changePin _ _ ph _ _ => some ph.val
  | .getPinToken _ _ ph => some ph.val
  | .getPinUvAuthTokenUsingPinWithPermissions _ _ ph _ _ => some ph.val
  | _ => none

/-- The UV retry count carried by a response, when its variant has one
(`GetUvRetries`), as a raw natural number. -/
def Response.uvRetriesOf : Response → Option Nat
  | .getUvRetries u => some u.val
  | _ => none

/-- A 16-byte cipher block, per `BLOCK_SIZE` in auth_protocol.rs. -/
def Block : Type := Bytes 16

/-- A sequence of exactly `n` cipher blocks, embedding the Rust array
type of `n` blocks of 16 bytes used by the `platform::Session` trait. -/
def Blocks (n : Nat) : Type := {bs : List Block // bs.length = n}

/-- Embedding of the `platform::Session` trait signature
(auth_protocol.rs).  A value of this structure is one implementation of
the trait for a fixed session: `encrypt` maps `n` plaintext blocks to a
`Result` of exactly `n` ciphertext blocks; `decrypt` maps `n` ciphertext
blocks to exactly `n` plaintext blocks with no error branch;
`authenticate` produces a 16-byte MAC or an error.  Every method takes
the session by shared reference in the source, so none is given a state
output here. -/
structure SessionInterface (E : Type) where
  platformKeyAgreementKey : CoseKey
  encrypt : (n : Nat) → Blocks n → Except E (Blocks n)
  decrypt : (n : Nat) → Blocks n → Blocks n
  authenticate : List Nat → Except E (Bytes 16)

/-- A 16-byte block of zeroes, for concrete instantiations. -/
def zeroBlock : Block := ⟨List.replicate 16 0, List.length_replicate 16 0⟩

/-- A trivial concrete inhabitant of the `platform::Session` trait
signature: the identity cipher with a zero MAC.  It serves only to
evaluate the interface-level statements at a concrete value. -/
def idSession : SessionInterface Error where
  platformKeyAgreementKey := ⟨[]⟩
  encrypt := fun _ p => .ok p
  decrypt := fun _ c => c
  authenticate := fun _ => .ok ⟨List.replicate 16 0, List.length_replicate 16 0⟩

/-- Modelled from the spec: the repository declares `platform::Session`
as a capability interface only (no implementation is in the source), so
the concrete platform-side session of spec section 4.3 is modelled here.
A session is bound to one protocol version and one derived shared
secret; the AES block primitive and the HMAC primitive are external
collaborators, carried as the abstract functions `enc`, `dec` and `mac`
already keyed by the shared secret.  Its fields are set once when the
session is created for a transaction and the interface offers no
operation that replaces them. -/
structure Session where
  version : Version
  platformPubKey : CoseKey
  sharedSecret : Nat
  enc : Nat → Nat
  dec : Nat → Nat
  mac : List Nat → List Nat

/-- CBC-mode encryption of a list of blocks (each block abstracted as a
natural number) under block cipher `E`, chaining from `prev`. -/
def cbcEnc (E : Nat → Nat) : Nat → List Nat → List Nat
  | _, [] => []
  | prev, p :: ps =>
      let c := E (p ^^^ prev)
      c :: cbcEnc E c ps

/-- CBC-mode decryption under block cipher inverse `D`, chaining from
`prev`. -/
def cbcDec (D : Nat → Nat) : Nat → List Nat → List Nat
  | _, [] => []
  | prev, c :: cs => (D c ^^^ prev) :: cbcDec D c cs

/-- Modelled from the spec: platform-side `encrypt` of spec section 4.3.
Version One uses a fixed zero IV and returns the CBC ciphertext; Version
Two uses the caller-supplied per-message IV (randomness is an external
collaborator) and prepends it to the ciphertext, so the output is longer
than the input. -/
def Session.encrypt (s : Session) (iv : Nat) (P : List Nat) : List Nat :=
  match s.version with
  | .one => cbcEnc s.enc 0 P
  | .two => iv :: cbcEnc s.enc iv P

/-- Modelled from the spec: platform-side `decrypt` of spec section 4.3,
the inverse of `Session.encrypt`.  Version One decrypts under the fixed
zero IV; Version Two reads the IV from the head of the ciphertext. -/
def Session.decrypt (s : Session) (C : List Nat) : List Nat :=
  match s.version with
  | .one => cbcDec s.dec 0 C
  | .two =>
      match C with
      | [] => []
      | iv :: rest => cbcDec s.dec iv rest

/-- Modelled from the spec: platform-side `authenticate` of spec section
4.3, the first 16 bytes of the underlying MAC output. -/
def Session.authenticate (s : Session) (msg : List Nat) : List Nat :=
  (s.mac msg).take 16

/-- One invocation of a platform-side session operation: the four
methods of the `platform::Session` trait that take an existing session
(`encrypt`, `decrypt`, `authenticate`, `platform_key_agreement_key`). -/
inductive SessionOp where
  | encrypt (iv : Nat) (P : List Nat)
  | decrypt (C : List Nat)
  | authenticate (msg : List Nat)
  | platformKeyAgreementKey

/-- The result of a session operation. -/
inductive SessionOutput where
  | bytes (bs : List Nat)
  | key (k : CoseKey)

/-- Running one operation against a session, with explicit state
passing.  Every one of these methods takes `&self` (a shared, immutable
reference) in the source, so the state handed back is the state handed
in. -/
def SessionOp.run (s : Session) : SessionOp → SessionOutput × Session
  | .encrypt iv P => (.bytes (s.encrypt iv P), s)
  | .decrypt C => (.bytes (s.decrypt C), s)
  | .authenticate msg => (.bytes (s.authenticate msg), s)
  | .platformKeyAgreementKey => (.key s.platformPubKey, s)

/-- Running a sequence of session operations, threading the state. -/
def Session.runOps (s : Session) (ops : List SessionOp) : Session :=
  ops.foldl (fun st op => (SessionOp.run st op).2) s

/-- A concrete Version-Two session over the identity block cipher, for
evaluating the session statements at a concrete value. -/
def idSessionTwo : Session where
  version := .two
  platformPubKey := ⟨[]⟩
  sharedSecret := 0
  enc := id
  dec := id
  mac := fun _ => List.replicate 32 0

/-- A concrete all-zero byte string of length `n`, for witnesses. -/
def sampleBytes (n : Nat) : Bytes n := ⟨List.replicate n 0, List.length_replicate n 0⟩

/-- A concrete token request carrying an empty permission set, built
directly from the `Request` constructors exactly as any caller of the
Rust enum could. -/
def emptyPermissionsRequest : Request :=
  .getPinUvAuthTokenUsingUvWithPermissions .one ⟨[]⟩ ∅ none

/-- A concrete one-block plaintext for the interface witnesses. -/
def oneBlock : Blocks 1 := ⟨[zeroBlock], rfl⟩

/-- State invariance of a single session operation: every method of the
`platform::Session` trait receives the session by shared reference, so
running it hands back the session unchanged. -/
theorem SessionOp.run_state (s : Session) (op : SessionOp) :
    (SessionOp.run s op).2 = s := by
  cases op <;> rfl

/-- State invariance of any operation sequence on a session. -/
theorem Session.runOps_id : ∀ (ops : List SessionOp) (s : Session),
    Session.runOps s ops = s := by
  intro ops
  induction ops with
  | nil => intro s; rfl
  | cons op rest ih =>
      intro s
      show Session.runOps (SessionOp.run s op).2 rest = s
      rw [SessionOp.run_state s op]
      exact ih s

/-- CBC decryption inverts CBC encryption under any IV, provided the
block cipher `Df` inverts `Ef`. -/
theorem cbcDec_cbcEnc (Ef Df : Nat → Nat) (hinv : ∀ b, Df (Ef b) = b) :
    ∀ (P : List Nat) (iv : Nat), cbcDec Df iv (cbcEnc Ef iv P) = P := by
  intro P
  induction P with
  | nil => intro iv; rfl
  | cons p ps ih =>
      intro iv
      simp [cbcEnc, cbcDec, hinv, ih, Nat.xor_assoc, Nat.xor_self, Nat.xor_zero]

/-- C1 (counterexample): the claim says no request value carrying zero
permissions can be constructed, but `emptyPermissionsRequest` is a
`GetPinUvAuthTokenUsingUvWithPermissions` request whose permission set
is empty: the `Request` enum places no non-emptiness condition on the
field (the source marks enforcement as a TODO), and no `MissingParameter`
rejection exists at construction time. -/
theorem empty_permissions_request_constructible :
    Request.permissionsOf emptyPermissionsRequest = some (∅ : Finset Permission) ∧
    (∅ : Finset Permission).card = 0 :=
  ⟨rfl, rfl⟩

/-- C1 (amended): request construction does not restrict the permission
set: for every permission set, empty included, both token-request
variants are constructible and carry exactly that set; no rejection
happens at construction time. -/
theorem request_permissions_unrestricted :
    ∀ (v : Version) (k : CoseKey) (ph : Bytes 16) (ps : Finset Permission)
      (rp : Option String),
      Request.permissionsOf
        (.getPinUvAuthTokenUsingUvWithPermissions v k ps rp) = some ps ∧
      Request.permissionsOf
        (.getPinUvAuthTokenUsingPinWithPermissions v k ph ps rp) = some ps :=
  fun _ _ _ _ _ => ⟨rfl, rfl⟩

/-- C2 (code_bug): under the `platform::Session` trait signature the
ciphertext of a successful `encrypt` call always has exactly as many
blocks as the plaintext and is never longer, for every implementation of
the interface; this contradicts the doc comment on `encrypt` in the
source (and the spec), which say the ciphertext may be longer than the
plaintext because Version Two prepends an IV. -/
theorem encrypt_output_never_longer :
    ∀ (E : Type) (S : SessionInterface E) (n : Nat) (p c : Blocks n),
      S.encrypt n p = .ok c →
      c.val.length = p.val.length ∧ ¬ p.val.length < c.val.length := by
  intro E S n p c _
  refine ⟨c.property.trans p.property.symm, ?_⟩
  rw [c.property, p.property]
  exact lt_irrefl n

/-- C2 witness: the statement evaluated on a concrete interface
implementation and a concrete one-block plaintext. -/
theorem encrypt_output_never_longer_witness :
    oneBlock.val.length = oneBlock.val.length ∧
    ¬ oneBlock.val.length < oneBlock.val.length :=
  encrypt_output_never_longer Error idSession 1 oneBlock oneBlock rfl

/-- C3 (counterexample): the claim counts 7 request and 7 response
variants, but the `Request` and `Response` enums do not have 7 variants
each. -/
theorem request_response_not_seven_variants :
    ¬ (Fintype.card RequestTag = 7 ∧ Fintype.card ResponseTag = 7) := by
  decide

/-- C3 (amended): the client-PIN `Request` and `Response` types are each
a closed set of exactly 8 variants, one per operation (GetPinRetries,
GetKeyAgreement, SetPin, ChangePin, GetPinToken,
GetPinUvAuthTokenUsingUvWithPermissions, GetUvRetries,
GetPinUvAuthTokenUsingPinWithPermissions), forming a flat dispatch in
which each operation is independently invocable: every variant tag is
realised by some constructible request and some constructible
response. -/
theorem request_response_eight_variants :
    Fintype.card RequestTag = 8 ∧ Fintype.card ResponseTag = 8 ∧
    (∀ t : RequestTag, ∃ r : Request, r.tag = t) ∧
    (∀ t : ResponseTag, ∃ p : Response, p.tag = t) := by
  refine ⟨by decide, by decide, ?_, ?_⟩
  · intro t
    cases t
    · exact ⟨.getPinRetries, rfl⟩
    · exact ⟨.getKeyAgreement .one, rfl⟩
    · exact ⟨.setPin .one ⟨[]⟩ (sampleBytes 64) (sampleBytes 16), rfl⟩
    · exact ⟨.changePin .one ⟨[]⟩ (sampleBytes 16) (sampleBytes 64) (sampleBytes 16), rfl⟩
    · exact ⟨.getPinToken .one ⟨[]⟩ (sampleBytes 16), rfl⟩
    · exact ⟨.getPinUvAuthTokenUsingUvWithPermissions .one ⟨[]⟩ ∅ none, rfl⟩
    · exact ⟨.getUvRetries, rfl⟩
    · exact ⟨.getPinUvAuthTokenUsingPinWithPermissions .one ⟨[]⟩ (sampleBytes 16) ∅ none, rfl⟩
  · intro t
    cases t
    · exact ⟨.getPinRetries 8 none, rfl⟩
    · exact ⟨.getKeyAgreement ⟨[]⟩, rfl⟩
    · exact ⟨.setPin, rfl⟩
    · exact ⟨.changePin, rfl⟩
    · exact ⟨.getPinToken (.short (sampleBytes 16)), rfl⟩
    · exact ⟨.getPinUvAuthTokenUsingUvWithPermissions (.short (sampleBytes 16)), rfl⟩
    · exact ⟨.getUvRetries ⟨1, by decide⟩, rfl⟩
    · exact ⟨.getPinUvAuthTokenUsingPinWithPermissions (.long (sampleBytes 32)), rfl⟩

/-- C4: parsing the byte a version converts to returns that version
(One maps to 1, Two maps to 2), and parsing any byte other than 1 or 2
fails with `Error::InvalidParameter`. -/
theorem version_parse_toByte_roundtrip :
    (∀ v : Version, Version.tryFromU8 (Version.toU8 v) = .ok v) ∧
    (∀ x : Nat, x < 256 → x ≠ 1 → x ≠ 2 →
      Version.tryFromU8 x = .error .invalidParameter) := by
  constructor
  · intro v
    cases v <;> rfl
  · intro x _ h1 h2
    simp [Version.tryFromU8, h1, h2]

/-- C4 witness: the round trip evaluated on both versions and the
failure evaluated on the concrete out-of-range byte 7. -/
theorem version_parse_toByte_roundtrip_witness :
    Version.tryFromU8 (Version.toU8 .one) = .ok .one ∧
    Version.tryFromU8 (Version.toU8 .two) = .ok .two ∧
    Version.tryFromU8 7 = .error .invalidParameter :=
  ⟨version_parse_toByte_roundtrip.1 .one,
   version_parse_toByte_roundtrip.1 .two,
   version_parse_toByte_roundtrip.2 7 (by decide) (by decide) (by decide)⟩

/-- C5: decoding a byte sequence into a `PinUvAuthToken` succeeds
exactly on lengths 16 (yielding `Short`) and 32 (yielding `Long`); every
other length fails with `Error::InvalidParameter`. -/
theorem pinUvAuthToken_decode_length_spec :
    ∀ l : List Nat,
      (∀ h : l.length = 16, PinUvAuthToken.tryFrom l = .ok (.short ⟨l, h⟩)) ∧
      (∀ h : l.length = 32, PinUvAuthToken.tryFrom l = .ok (.long ⟨l, h⟩)) ∧
      (l.length ≠ 16 → l.length ≠ 32 →
        PinUvAuthToken.tryFrom l = .error .invalidParameter) := by
  intro l
  refine ⟨?_, ?_, ?_⟩
  · intro h
    simp [PinUvAuthToken.tryFrom, h]
  · intro h
    have h16 : l.length ≠ 16 := by omega
    simp [PinUvAuthToken.tryFrom, h, h16]
  · intro h16 h32
    simp [PinUvAuthToken.tryFrom, h16, h32]

/-- C5 witness: the decode evaluated on concrete sequences of lengths
16, 32 and 1. -/
theorem pinUvAuthToken_decode_length_spec_witness :
    PinUvAuthToken.tryFrom (List.replicate 16 1) =
      .ok (.short ⟨List.replicate 16 1, List.length_replicate 16 1⟩) ∧
    PinUvAuthToken.tryFrom (List.replicate 32 1) =
      .ok (.long ⟨List.replicate 32 1, List.length_replicate 32 1⟩) ∧
    PinUvAuthToken.tryFrom [9] = .error .invalidParameter :=
  ⟨(pinUvAuthToken_decode_length_spec (List.replicate 16 1)).1 (List.length_replicate 16 1),
   (pinUvAuthToken_decode_length_spec (List.replicate 32 1)).2.1 (List.length_replicate 32 1),
   (pinUvAuthToken_decode_length_spec [9]).2.2 (by decide) (by decide)⟩

/-- C6: under a session whose block-decryption primitive inverts its
block-encryption primitive, platform-side decryption inverts
platform-side encryption on every plaintext block sequence, for both
protocol versions and any per-message IV. -/
theorem session_decrypt_encrypt_inverse :
    ∀ (s : Session) (iv : Nat) (P : List Nat),
      (∀ b, s.dec (s.enc b) = b) →
      s.decrypt (s.encrypt iv P) = P := by
  intro s iv P hinv
  cases hv : s.version with
  | one =>
      simp [Session.encrypt, Session.decrypt, hv, cbcDec_cbcEnc s.enc s.dec hinv]
  | two =>
      simp [Session.encrypt, Session.decrypt, hv, cbcDec_cbcEnc s.enc s.dec hinv]

/-- C6 witness: the inverse law evaluated on a concrete Version-Two
session, IV 7 and the three-block plaintext [1, 2, 3]. -/
theorem session_decrypt_encrypt_inverse_witness :
    Session.decrypt idSessionTwo (Session.encrypt idSessionTwo 7 [1, 2, 3]) = [1, 2, 3] :=
  session_decrypt_encrypt_inverse idSessionTwo 7 [1, 2, 3] (fun _ => rfl)

/-- C7: no operation of the platform-side session interface (`encrypt`,
`decrypt`, `authenticate`, `platform_key_agreement_key`) mutates the
session: running any sequence of operations leaves the session, and in
particular its shared secret, exactly as created; the interface offers
no rekey operation, so only creating a new session yields a new shared
secret. -/
theorem session_ops_never_mutate :
    ∀ (s : Session) (ops : List SessionOp),
      Session.runOps s ops = s ∧
      (Session.runOps s ops).sharedSecret = s.sharedSecret := by
  intro s ops
  have h := Session.runOps_id ops s
  exact ⟨h, by rw [h]⟩

/-- C8: every `GetUvRetries` response carries a UV retry count inside
the closed range [1, 25]; no response can carry a count outside it. -/
theorem uv_retries_bounded :
    ∀ (r : Response) (n : Nat),
      Response.uvRetriesOf r = some n → 1 ≤ n ∧ n ≤ 25 := by
  intro r n h
  cases r <;> simp [Response.uvRetriesOf] at h
  case getUvRetries u => exact h ▸ u.property

/-- C8 witness: the bound evaluated on a concrete `GetUvRetries`
response carrying the count 3. -/
theorem uv_retries_bounded_witness : 1 ≤ (3 : Nat) ∧ (3 : Nat) ≤ 25 :=
  uv_retries_bounded (.getUvRetries ⟨3, by decide⟩) 3 rfl

/-- C9: for every implementation of the `platform::Session` trait
signature and every block-aligned ciphertext, `decrypt` returns a
plaintext with exactly as many 16-byte blocks as the ciphertext; its
signature has no error branch (it returns blocks, not a `Result`), so
platform-side decryption is total. -/
theorem decrypt_total_length_preserving :
    ∀ (E : Type) (S : SessionInterface E) (n : Nat) (c : Blocks n),
      (S.decrypt n c).val.length = n ∧
      (S.decrypt n c).val.length = c.val.length := by
  intro E S n c
  exact ⟨(S.decrypt n c).property, (S.decrypt n c).property.trans c.property.symm⟩

/-- C10: in every constructible request, the encrypted new PIN (present
in `SetPin` and `ChangePin`) is exactly 64 bytes and the encrypted PIN
hash (present in `ChangePin`, `GetPinToken` and
`GetPinUvAuthTokenUsingPinWithPermissions`) is exactly 16 bytes; the
lengths are fixed by the array types of the fields, not checked at run
time. -/
theorem request_ciphertext_lengths :
    ∀ r : Request,
      (∀ l, Request.newPinEncryptedOf r = some l → l.length = 64) ∧
      (∀ l, Request.pinHashEncryptedOf r = some l → l.length = 16) := by
  intro r
  constructor
  · intro l h
    cases r <;> simp [Request.newPinEncryptedOf] at h
    case setPin v k np pa => exact h ▸ np.property
    case changePin v k ph np pa => exact h ▸ np.property
  · intro l h
    cases r <;> simp [Request.pinHashEncryptedOf] at h
    case changePin v k ph np pa => exact h ▸ ph.property
    case getPinToken v k ph => exact h ▸ ph.property
    case getPinUvAuthTokenUsingPinWithPermissions v k ph ps rp => exact h ▸ ph.property

/-- C10 witness: the field lengths evaluated on a concrete `SetPin`
request and a concrete `GetPinToken` request. -/
theorem request_ciphertext_lengths_witness :
    (List.replicate 64 0).length = 64 ∧ (List.replicate 16 0).length = 16 :=
  ⟨(request_ciphertext_lengths
      (.setPin .one ⟨[]⟩ (sampleBytes 64) (sampleBytes 16))).1 (List.replicate 64 0) rfl,
   (request_ciphertext_lengths
      (.getPinToken .one ⟨[]⟩ (sampleBytes 16))).2 (List.replicate 16 0) rfl⟩

end Passly
